import Mathlib

/-!
Shallow embedding of the collection-lifecycle core of `src/routes/v2/collections.rs`
(labrinth). Handlers are modelled as pure functions from an authentication
context, request data and a database snapshot to an `Outcome`: the HTTP-level
result, the database after the request, and a trace of the externally visible
effect events (repository row reads, asset-store calls, cache invalidation,
transaction commit). Collaborators that are not part of the sample source
(auth checks, status predicates, repository internals, payload reading) are
modelled from the specification and marked as such in their doc comments.
-/

namespace Collections

/-- Capability scopes carried by a credential (`crate::models::pats::Scopes`,
only the collection scopes used by the sample handlers). -/
inductive Scopes
  | collectionCreate
  | collectionRead
  | collectionWrite
  | collectionDelete
deriving DecidableEq, Repr

/-- The authenticated user as the handlers see it: its id and whether its
role passes `role.is_mod()`. -/
structure User where
  id : Nat
  role_is_mod : Bool
deriving DecidableEq, Repr

/-- A credential presented with the request: the user it authenticates plus
the capability scopes it carries. An anonymous request carries no credential
(`Option AuthCred = none`). -/
structure AuthCred where
  user : User
  scopes : List Scopes
deriving DecidableEq, Repr

/-- Error taxonomy of `ApiError` / `CreateError` as used by these handlers. -/
inductive ApiError
  | validation (msg : String)
  | customAuthentication (msg : String)
  | invalidInput (msg : String)
  | unauthenticated
  | storage
deriving DecidableEq, Repr

/-- Modelled from the spec: §4.2 scope check. `get_user_from_headers` fails
when no credential is present or the credential does not carry every
required scope; otherwise it yields the authenticated user.
("Anonymous callers pass only for read-class operations" is a property of
how call sites use this, not of this function.) -/
def get_user_from_headers (cred : Option AuthCred) (required : List Scopes) :
    Except ApiError User :=
  match cred with
  | none => .error .unauthenticated
  | some c =>
    if required.all (fun s => c.scopes.contains s) then .ok c.user
    else .error .unauthenticated

/-- Collection status. Modelled from the spec: §4.4 gives the closed state
set {Listed, Private, Approved, Rejected}; the model file
(`crate::models::collections::CollectionStatus`) is not part of the sample. -/
inductive CollectionStatus
  | listed
  | priv
  | approved
  | rejected
deriving DecidableEq, Repr

/-- Modelled from the spec: §4.4 derived predicate `is_approved(status)`;
the gate requires the current status to be approved. -/
def CollectionStatus.is_approved : CollectionStatus → Bool
  | .approved => true
  | _ => false

/-- Modelled from the spec: §4.4 derived predicate `can_be_requested(status)`:
the statuses an ordinary user may request (the non-moderation ones). -/
def CollectionStatus.can_be_requested : CollectionStatus → Bool
  | .listed => true
  | .priv => true
  | _ => false

/-- Modelled from the spec: §4.2 "the collection's status is one of the
publicly-visible set (e.g., Listed/Approved)". -/
def CollectionStatus.isPubliclyVisible : CollectionStatus → Bool
  | .listed => true
  | .approved => true
  | _ => false

/-- The stored collection row (`database::models::collection_item`), with the
fields the sample handlers read and write; timestamps are opaque numbers. -/
structure CollectionRow where
  id : Nat
  user_id : Nat
  title : String
  description : String
  status : CollectionStatus
  icon_url : Option String
  color : Option Nat
  created : Nat
  updated : Nat
deriving DecidableEq, Repr

/-- The relational store: collection rows, the `collections_mods` join table
as (collection_id, mod_id) pairs, and the external projects visible through
ProjectLookup as slug-to-id pairs. -/
structure DB where
  collections : List CollectionRow
  links : List (Nat × Nat)
  projects : List (String × Nat)
deriving DecidableEq, Repr

/-- `Collection::get` on the row store (cache-first in the source; the cache
is not observable through these claims beyond its invalidation events). -/
def DB.getCollection (db : DB) (cid : Nat) : Option CollectionRow :=
  db.collections.find? (fun c => c.id == cid)

/-- An SQL `UPDATE collections SET ... WHERE id = cid` applied to a snapshot. -/
def DB.updateRow (db : DB) (cid : Nat) (f : CollectionRow → CollectionRow) : DB :=
  { db with collections := db.collections.map (fun c => if c.id = cid then f c else c) }

/-- `INSERT INTO collections_mods ... ON CONFLICT DO NOTHING`: inserting an
already-present pair leaves the table unchanged. -/
def insert_link (links : List (Nat × Nat)) (cid pid : Nat) : List (Nat × Nat) :=
  if (cid, pid) ∈ links then links else links ++ [(cid, pid)]

/-- ProjectLookup for a single id (`database::models::Project::get`):
resolves a project slug/id string to the project, if it exists. Modelled
from the spec: §4.3 ProjectLookup collaborator. -/
def lookupProject (projects : List (String × Nat)) (slug : String) : Option Nat :=
  (projects.find? (fun p => p.1 == slug)).map (fun p => p.2)

/-- Modelled from the spec: batched ProjectLookup
(`project_item::Project::get_many`); "missing ids are silently omitted, not
errors" (§4.1, batched form of get). -/
def project_get_many (projects : List (String × Nat)) (ids : List String) : List Nat :=
  ids.filterMap (lookupProject projects)

/-- The membership set of a collection observable through the join table. -/
def DB.memberSet (db : DB) (cid : Nat) : List Nat :=
  (db.links.filter (fun l => l.1 == cid)).map (fun l => l.2)

/-- Externally visible effect events, in the order the handler performs them. -/
inductive Event
  | getRow (cid : Nat)
  | assetUpload (path : String)
  | assetDelete (path : String)
  | clearCache (cid : Nat)
  | commit
deriving DecidableEq, Repr

/-- Whether an event is a call to the AssetStore. -/
def Event.isAssetCall : Event → Bool
  | .assetUpload _ => true
  | .assetDelete _ => true
  | _ => false

/-- Whether an event is an AssetStore upload. -/
def Event.isUpload : Event → Bool
  | .assetUpload _ => true
  | _ => false

/-- The materialized API entity (`crate::models::collections::Collection`). -/
structure CollectionModel where
  id : Nat
  user : Nat
  title : String
  description : String
  created : Nat
  updated : Nat
  icon_url : Option String
  color : Option Nat
  status : CollectionStatus
  projects : List Nat
deriving DecidableEq, Repr

/-- HTTP-level responses the sample handlers produce. -/
inductive Response
  | okCollection (c : CollectionModel)
  | noContent
  | notFound
  | unauthorized
deriving DecidableEq, Repr

/-- The HTTP status code of each response constructor
(`HttpResponse::Ok`/`NoContent`/`NotFound`/`Unauthorized`). A Forbidden
response would be 403; the handlers never build one. -/
def Response.statusCode : Response → Nat
  | .okCollection _ => 200
  | .noContent => 204
  | .notFound => 404
  | .unauthorized => 401

deriving instance DecidableEq for Except

/-- Result of one handler run: the response or error, the database after the
request (transactions that were not committed leave it unchanged), and the
trace of effect events in order. -/
structure Outcome where
  result : Except ApiError Response
  db : DB
  trace : List Event
deriving DecidableEq, Repr

/-- External environment: CDN base url, clock, content hashing, image color
extraction, and whether each AssetStore call succeeds. -/
structure Env where
  cdnUrl : String
  now : Nat
  sha1hex : List Nat → String
  getColor : List Nat → Except ApiError (Option Nat)
  deleteOk : String → Bool
  uploadOk : String → Bool

/-- ASCII whitespace, for the string-trimming model. -/
def char_is_ws (c : Char) : Bool := c == ' ' || c == '\t' || c == '\n' || c == '\r'

/-- Rust `str::trim`: the string with leading and trailing whitespace removed
(modelled over the character list). -/
def rust_trim (s : String) : String :=
  String.mk (((s.data.dropWhile char_is_ws).reverse.dropWhile char_is_ws).reverse)

/-- Modelled from the spec: `crate::util::validate::validate_name` is not in
the sample; §3 says titles are "name-format validated" — modelled as: the
trimmed name is nonempty. -/
def validate_name (s : String) : Bool := !(rust_trim s).data.isEmpty

/-- Modelled from the spec: §4.2 visibility/ownership check
(`is_authorized_collection`): "true if actor is the owner, actor has
moderator role, or the collection's status is one of the publicly-visible
set". An anonymous viewer is authorized exactly for publicly visible
collections. -/
def is_authorized_collection (c : CollectionRow) (user_option : Option User) : Bool :=
  match user_option with
  | some u => u.id == c.user_id || u.role_is_mod || c.status.isPubliclyVisible
  | none => c.status.isPubliclyVisible

/-- Modelled from the spec: `crate::util::ext::get_image_content_type`, a
fixed allow-list from extension to content type (§4.5 step 1). -/
def get_image_content_type (ext : String) : Option String :=
  if ext == "png" then some "image/png"
  else if ext == "jpg" || ext == "jpeg" then some "image/jpeg"
  else if ext == "gif" then some "image/gif"
  else if ext == "webp" then some "image/webp"
  else if ext == "bmp" then some "image/bmp"
  else none

/-- Modelled from the spec: `crate::util::routes::read_from_payload` reads the
request body under a hard size cap and fails with a Validation error when the
cap is exceeded (§4.5 step 2). The payload is a byte list. -/
def read_from_payload (payload : List Nat) (cap : Nat) (errMsg : String) :
    Except ApiError (List Nat) :=
  if payload.length > cap then .error (.validation errMsg) else .ok payload

/-- `CollectionCreateData` (the create request body). -/
structure CollectionCreateData where
  title : String
  description : String
  projects : List String
deriving DecidableEq, Repr

/-- The `validator` checks on `CollectionCreateData`: title length 3..64 and
name format, description length 3..255, at most 32 initial projects. -/
def validate_create (d : CollectionCreateData) : Bool :=
  decide (3 ≤ d.title.length) && decide (d.title.length ≤ 64) && validate_name d.title &&
  decide (3 ≤ d.description.length) && decide (d.description.length ≤ 255) &&
  decide (d.projects.length ≤ 32)

/-- `EditCollection` (the edit request body). -/
structure EditCollection where
  title : Option String
  description : Option String
  status : Option CollectionStatus
  new_projects : Option (List String)
deriving DecidableEq, Repr

/-- The `validator` checks on `EditCollection`: optional title length 3..64
and name format, optional description length 3..256, at most 64 new
projects. Each check is applied to the field exactly as submitted. -/
def validate_edit (e : EditCollection) : Bool :=
  (match e.title with
   | some t => decide (3 ≤ t.length) && decide (t.length ≤ 64) && validate_name t
   | none => true) &&
  (match e.description with
   | some d => decide (3 ≤ d.length) && decide (d.length ≤ 256)
   | none => true) &&
  (match e.new_projects with
   | some ps => decide (ps.length ≤ 64)
   | none => true)

/-- Modelled from the spec: §4.1 `create` "allocates a new identifier"
(`generate_collection_id`); a fresh id strictly above every existing row id. -/
def generate_collection_id (db : DB) : Nat :=
  (db.collections.map (fun c => c.id)).foldr max 0 + 1

/-- Modelled from the spec: `Collection::from(data)` materializes the API
entity from the stored row and its membership links (§4.1: the fully
materialized entity). -/
def collectionFrom (c : CollectionRow) (db : DB) : CollectionModel :=
  { id := c.id, user := c.user_id, title := c.title, description := c.description,
    created := c.created, updated := c.updated, icon_url := c.icon_url,
    color := c.color, status := c.status, projects := db.memberSet c.id }

/-- `collection_create` (`#[post("collection")]`): scope check with `?`
(a failed check aborts), validation, id generation, batched project lookup,
builder insert of row and links in one transaction, response constructed
client-side from the known inputs. -/
def collection_create (cred : Option AuthCred) (body : CollectionCreateData)
    (env : Env) (db : DB) : Outcome :=
  match get_user_from_headers cred [Scopes.collectionCreate] with
  | .error e => ⟨.error e, db, []⟩
  | .ok current_user =>
    if !validate_create body then
      ⟨.error (.invalidInput "validation error"), db, []⟩
    else
      let collection_id := generate_collection_id db
      let initial_project_ids := project_get_many db.projects body.projects
      let row : CollectionRow :=
        { id := collection_id, user_id := current_user.id, title := body.title,
          description := body.description, status := .listed, icon_url := none,
          color := none, created := env.now, updated := env.now }
      let tx : DB :=
        { db with
          collections := db.collections ++ [row],
          links := initial_project_ids.foldl
            (fun ls pid => insert_link ls collection_id pid) db.links }
      let response : CollectionModel :=
        { id := collection_id, user := current_user.id, title := body.title,
          description := body.description, created := env.now, updated := env.now,
          icon_url := none, color := none, status := .listed,
          projects := initial_project_ids }
      ⟨.ok (.okCollection response), tx, [Event.commit]⟩

/-- `collection_get` (`#[get("{id}")]`): the row is read first, the scope
check result is swallowed with `.ok()`, and an unauthorized or missing
collection yields NotFound. -/
def collection_get (cred : Option AuthCred) (cid : Nat) (db : DB) : Outcome :=
  let collection_data := db.getCollection cid
  let user_option := (get_user_from_headers cred [Scopes.collectionRead]).toOption
  match collection_data with
  | some data =>
    if is_authorized_collection data user_option then
      ⟨.ok (.okCollection (collectionFrom data db)), db, [Event.getRow cid]⟩
    else
      ⟨.ok .notFound, db, [Event.getRow cid]⟩
  | none => ⟨.ok .notFound, db, [Event.getRow cid]⟩

/-- The status arm of `collection_edit`: only evaluated when a status is
requested; silently skipped when there is no authenticated user
(`if let Some(user) = user_option`); otherwise gated on
`user.role.is_mod() || (current.is_approved() && status.can_be_requested())`. -/
def edit_step_status (user_option : Option User) (statusOpt : Option CollectionStatus)
    (current : CollectionStatus) (cid : Nat) (tx : DB) : Except ApiError DB :=
  match statusOpt with
  | none => .ok tx
  | some status =>
    match user_option with
    | none => .ok tx
    | some user =>
      if !(user.role_is_mod || (current.is_approved && status.can_be_requested)) then
        .error (.customAuthentication "You don't have permission to set this status!")
      else
        .ok (tx.updateRow cid (fun c => { c with status := status }))

/-- The per-id loop of the `new_projects` arm: resolve each id via
ProjectLookup (aborting with "The specified project ... does not exist!"
when one is missing) and insert the link with ON CONFLICT DO NOTHING. -/
def edit_apply_projects (projects : List (String × Nat)) (cid : Nat) :
    List String → List (Nat × Nat) → Except ApiError (List (Nat × Nat))
  | [], links => .ok links
  | p :: rest, links =>
    match lookupProject projects p with
    | none => .error (.invalidInput ("The specified project " ++ p ++ " does not exist!"))
    | some pid => edit_apply_projects projects cid rest (insert_link links cid pid)

/-- The `new_projects` arm of `collection_edit`: delete the entire existing
membership set of the collection, then run the resolve-and-insert loop.
Resolution reads the committed store (the pool), inserts go to the
transaction. -/
def edit_step_projects (dbProjects : List (String × Nat)) (cid : Nat)
    (newProjects : Option (List String)) (tx : DB) : Except ApiError DB :=
  match newProjects with
  | none => .ok tx
  | some ps =>
    let links0 := tx.links.filter (fun l => !(l.1 == cid))
    match edit_apply_projects dbProjects cid ps links0 with
    | .error e => .error e
    | .ok links1 => .ok { tx with links := links1 }

/-- `collection_edit` (`#[patch("{id}")]`): the scope-check result is
swallowed with `.ok()`; validation; row read; visibility check (failure
gives HTTP 401 Unauthorized); then, inside one transaction: title update
(stored trimmed), description update, status arm, membership replace-all;
cache invalidation; commit. An error return before the commit drops the
transaction, leaving the database unchanged. -/
def collection_edit (cred : Option AuthCred) (cid : Nat) (body : EditCollection)
    (db : DB) : Outcome :=
  let user_option := (get_user_from_headers cred [Scopes.collectionWrite]).toOption
  if !validate_edit body then
    ⟨.error (.validation "validation error"), db, []⟩
  else
    match db.getCollection cid with
    | none => ⟨.ok .notFound, db, [Event.getRow cid]⟩
    | some collection_item =>
      if !(is_authorized_collection collection_item user_option) then
        ⟨.ok .unauthorized, db, [Event.getRow cid]⟩
      else
        let id := collection_item.id
        let tx : DB := db
        let tx : DB :=
          match body.title with
          | some t => tx.updateRow id (fun c => { c with title := rust_trim t })
          | none => tx
        let tx : DB :=
          match body.description with
          | some d => tx.updateRow id (fun c => { c with description := d })
          | none => tx
        match edit_step_status user_option body.status collection_item.status id tx with
        | .error e => ⟨.error e, db, [Event.getRow cid]⟩
        | .ok tx2 =>
          match edit_step_projects db.projects id body.new_projects tx2 with
          | .error e => ⟨.error e, db, [Event.getRow cid]⟩
          | .ok tx3 =>
            ⟨.ok .noContent, tx3, [Event.getRow cid, Event.clearCache id, Event.commit]⟩

/-- Split a character list at the first occurrence of `sep`, returning the
part before and the part after it, or `none` when `sep` does not occur. -/
def splitFirst (sep : List Char) : List Char → Option (List Char × List Char)
  | [] => none
  | c :: rest =>
    if sep.isPrefixOf (c :: rest) then some ([], List.drop sep.length (c :: rest))
    else (splitFirst sep rest).map (fun p => (c :: p.1, p.2))

/-- Rust `s.split(sep).nth(1)` for a nonempty separator: the fragment between
the first and second occurrence of `sep` (the rest of the string when `sep`
occurs only once), or `none` when `sep` does not occur at all. -/
def split_nth1 (sep s : List Char) : Option (List Char) :=
  (splitFirst sep s).map (fun p =>
    match splitFirst sep p.2 with
    | some q => q.1
    | none => p.2)

/-- The icon path stored inside an icon URL:
`icon.split(&format!("{cdn_url}/")).nth(1)` (the cdn url followed by a slash
as the separator). -/
def old_icon_path (cdn_url : String) (icon_url : Option String) : Option String :=
  match icon_url with
  | none => none
  | some icon => (split_nth1 (cdn_url.data ++ ['/']) icon.data).map String.mk

/-- The tail of `collection_icon_edit` after the old-blob deletion: read the
payload under the 256 KiB cap, extract the color (its failure propagates
with `?` in the sample), hash, upload, then in one transaction update
`icon_url`/`color`, invalidate the cache and commit. `preTrace` holds the
events already performed. -/
def collection_icon_edit_store (cid : Nat) (ext : String) (payload : List Nat)
    (env : Env) (db : DB) (preTrace : List Event) : Outcome :=
  match read_from_payload payload 262144 "Icons must be smaller than 256KiB" with
  | .error e => ⟨.error e, db, preTrace⟩
  | .ok bytes =>
    match env.getColor bytes with
    | .error e => ⟨.error e, db, preTrace⟩
    | .ok color =>
      let hash := env.sha1hex bytes
      let path := "data/" ++ toString cid ++ "/" ++ hash ++ "." ++ ext
      if !(env.uploadOk path) then
        ⟨.error .storage, db, preTrace ++ [Event.assetUpload path]⟩
      else
        let tx := db.updateRow cid
          (fun c => { c with icon_url := some (env.cdnUrl ++ "/" ++ path), color := color })
        ⟨.ok .noContent, tx,
          preTrace ++ [Event.assetUpload path, Event.clearCache cid, Event.commit]⟩

/-- `collection_icon_edit` (`#[patch("{id}/icon")]`): extension allow-list
first (unknown extension aborts with no further work); scope-check result
swallowed with `.ok()`; row read (a missing collection is an InvalidInput
error); visibility check; then — in the sample's order — the old blob is
deleted from the AssetStore before the payload is even read, and a failure
of that deletion propagates with `?` and aborts the request. -/
def collection_icon_edit (cred : Option AuthCred) (cid : Nat) (ext : String)
    (payload : List Nat) (env : Env) (db : DB) : Outcome :=
  match get_image_content_type ext with
  | none => ⟨.error (.invalidInput ("Invalid format for collection icon: " ++ ext)), db, []⟩
  | some _content_type =>
    let user_option := (get_user_from_headers cred [Scopes.collectionWrite]).toOption
    match db.getCollection cid with
    | none =>
      ⟨.error (.invalidInput "The specified collection does not exist!"), db, [Event.getRow cid]⟩
    | some collection_item =>
      if !(is_authorized_collection collection_item user_option) then
        ⟨.ok .unauthorized, db, [Event.getRow cid]⟩
      else
        match old_icon_path env.cdnUrl collection_item.icon_url with
        | some icon_path =>
          if env.deleteOk icon_path then
            collection_icon_edit_store collection_item.id ext payload env db
              [Event.getRow cid, Event.assetDelete icon_path]
          else
            ⟨.error .storage, db, [Event.getRow cid, Event.assetDelete icon_path]⟩
        | none => collection_icon_edit_store collection_item.id ext payload env db [Event.getRow cid]

/-- The tail of `delete_collection_icon` after the old-blob deletion: in one
transaction set `icon_url`/`color` to NULL, invalidate the cache, commit. -/
def delete_collection_icon_store (cid : Nat) (db : DB) (preTrace : List Event) : Outcome :=
  let tx := db.updateRow cid (fun c => { c with icon_url := none, color := none })
  ⟨.ok .noContent, tx, preTrace ++ [Event.clearCache cid, Event.commit]⟩

/-- `delete_collection_icon` (`#[delete("{id}/icon")]`): scope-check result
swallowed with `.ok()`; row read (missing collection is InvalidInput);
visibility check (401 on failure); best-effort-less old blob deletion whose
failure propagates with `?`; then the transactional clear. -/
def delete_collection_icon (cred : Option AuthCred) (cid : Nat) (env : Env)
    (db : DB) : Outcome :=
  let user_option := (get_user_from_headers cred [Scopes.collectionWrite]).toOption
  match db.getCollection cid with
  | none =>
    ⟨.error (.invalidInput "The specified collection does not exist!"), db, [Event.getRow cid]⟩
  | some collection_item =>
    if !(is_authorized_collection collection_item user_option) then
      ⟨.ok .unauthorized, db, [Event.getRow cid]⟩
    else
      match old_icon_path env.cdnUrl collection_item.icon_url with
      | some icon_path =>
        if env.deleteOk icon_path then
          delete_collection_icon_store collection_item.id db
            [Event.getRow cid, Event.assetDelete icon_path]
        else
          ⟨.error .storage, db, [Event.getRow cid, Event.assetDelete icon_path]⟩
      | none => delete_collection_icon_store collection_item.id db [Event.getRow cid]

/-- Modelled from the spec: `Collection::remove` (§4.1/§3): deletes the
membership links and the row, invalidates the cache entry, and reports
whether a row existed. -/
def Collection_remove (tx : DB) (cid : Nat) : Option Unit × DB × List Event :=
  match tx.getCollection cid with
  | some _ =>
    (some (),
     { tx with
       collections := tx.collections.filter (fun c => !(c.id == cid)),
       links := tx.links.filter (fun l => !(l.1 == cid)) },
     [Event.clearCache cid])
  | none => (none, tx, [])

/-- `collection_delete` (`#[delete("{id}")]`): scope-check result swallowed
with `.ok()`; row read (missing collection is InvalidInput); visibility
check (401 on failure); then remove, cache invalidation and commit; the
response is NoContent when a row was removed, NotFound otherwise. -/
def collection_delete (cred : Option AuthCred) (cid : Nat) (db : DB) : Outcome :=
  let user_option := (get_user_from_headers cred [Scopes.collectionDelete]).toOption
  match db.getCollection cid with
  | none =>
    ⟨.error (.invalidInput "The specified collection does not exist!"), db, [Event.getRow cid]⟩
  | some collection =>
    if !(is_authorized_collection collection user_option) then
      ⟨.ok .unauthorized, db, [Event.getRow cid]⟩
    else
      let removed := Collection_remove db collection.id
      let trace := [Event.getRow cid] ++ removed.2.2 ++ [Event.clearCache collection.id, Event.commit]
      match removed.1 with
      | some _ => ⟨.ok .noContent, removed.2.1, trace⟩
      | none => ⟨.ok .notFound, removed.2.1, trace⟩

/-! ### Concrete fixtures used by counterexamples and witnesses -/

/-- A publicly listed collection without an icon, owned by user 7. -/
def sampleRow : CollectionRow :=
  { id := 1
    user_id := 7
    title := "old title"
    description := "a description"
    status := .listed
    icon_url := none
    color := none
    created := 0
    updated := 0 }

/-- A store holding only `sampleRow`, two projects and no links. -/
def sampleDB : DB :=
  { collections := [sampleRow]
    links := []
    projects := [("alpha", 10), ("beta", 20)] }

/-- `sampleRow` with an icon already set. -/
def sampleRowIcon : CollectionRow :=
  { sampleRow with icon_url := some "https://cdn/data/1/old.png", color := some 3 }

/-- A store holding only `sampleRowIcon`. -/
def sampleDBIcon : DB :=
  { collections := [sampleRowIcon]
    links := []
    projects := [("alpha", 10), ("beta", 20)] }

/-- A private collection owned by user 7 (not publicly visible). -/
def sampleRowPrivate : CollectionRow := { sampleRow with status := .priv }

/-- A store holding only `sampleRowPrivate`. -/
def sampleDBPrivate : DB :=
  { collections := [sampleRowPrivate]
    links := []
    projects := [("alpha", 10), ("beta", 20)] }

/-- The owner's credential, with every collection scope. -/
def ownerCred : AuthCred :=
  { user := { id := 7, role_is_mod := false }
    scopes := [Scopes.collectionCreate, Scopes.collectionRead,
               Scopes.collectionWrite, Scopes.collectionDelete] }

/-- A credential of an unrelated, non-moderator user, with every scope. -/
def otherCred : AuthCred :=
  { user := { id := 9, role_is_mod := false }
    scopes := [Scopes.collectionCreate, Scopes.collectionRead,
               Scopes.collectionWrite, Scopes.collectionDelete] }

/-- A moderator's credential, with every scope. -/
def modCred : AuthCred :=
  { user := { id := 5, role_is_mod := true }
    scopes := [Scopes.collectionCreate, Scopes.collectionRead,
               Scopes.collectionWrite, Scopes.collectionDelete] }

/-- An environment in which every AssetStore call succeeds. -/
def envAllOk : Env :=
  { cdnUrl := "https://cdn"
    now := 0
    sha1hex := fun _ => "abc"
    getColor := fun _ => .ok (some 5)
    deleteOk := fun _ => true
    uploadOk := fun _ => true }

/-- An environment in which AssetStore deletions fail. -/
def envDeleteFail : Env := { envAllOk with deleteOk := fun _ => false }

/-! ### General lemmas about the embedded operations -/

/-- A fetched row carries the id it was fetched under. -/
theorem getCollection_id {db : DB} {cid : Nat} {c : CollectionRow}
    (h : db.getCollection cid = some c) : c.id = cid := by
  have hp := List.find?_some (show List.find? (fun r => r.id == cid) db.collections = some c by
    simpa [DB.getCollection] using h)
  simpa using hp

/-- Row-level form of `getCollection_updateRow`: finding in a mapped list. -/
theorem find?_update (l : List CollectionRow) (cid : Nat) (f : CollectionRow → CollectionRow)
    (hf : ∀ c, (f c).id = c.id) :
    (l.map (fun c => if c.id = cid then f c else c)).find? (fun c => c.id == cid)
      = (l.find? (fun c => c.id == cid)).map f := by
  induction l with
  | nil => rfl
  | cons c l ih =>
    by_cases hc : c.id = cid
    · have hfb : ((f c).id == cid) = true := by simpa [hf] using hc
      have hcb : (c.id == cid) = true := by simpa using hc
      simp only [List.map_cons, List.find?_cons, if_pos hc, hfb, hcb]
      rfl
    · have hcb : (c.id == cid) = false := by simpa using hc
      simp only [List.map_cons, List.find?_cons, if_neg hc, hcb, ih]

/-- Reading back the updated row: an id-preserving row update commutes with
the row fetch. -/
theorem getCollection_updateRow (db : DB) (cid : Nat) (f : CollectionRow → CollectionRow)
    (hf : ∀ c, (f c).id = c.id) :
    (db.updateRow cid f).getCollection cid = (db.getCollection cid).map f := by
  simpa [DB.updateRow, DB.getCollection] using find?_update db.collections cid f hf

/-- Row-level form of `getCollection_updateRow_ne`. -/
theorem find?_update_ne (l : List CollectionRow) (cid cid' : Nat)
    (f : CollectionRow → CollectionRow) (hf : ∀ c, (f c).id = c.id) (hne : cid' ≠ cid) :
    (l.map (fun c => if c.id = cid' then f c else c)).find? (fun c => c.id == cid)
      = l.find? (fun c => c.id == cid) := by
  induction l with
  | nil => rfl
  | cons c l ih =>
    by_cases hc : c.id = cid'
    · have h2 : c.id ≠ cid := fun h => hne (hc ▸ h)
      have hfb : ((f c).id == cid) = false := by simpa [hf] using h2
      have h2b : (c.id == cid) = false := by simpa using h2
      simp only [List.map_cons, List.find?_cons, if_pos hc, hfb, h2b, ih]
    · by_cases h3 : c.id = cid
      · have h3b : (c.id == cid) = true := by simpa using h3
        simp only [List.map_cons, List.find?_cons, if_neg hc, h3b]
      · have h3b : (c.id == cid) = false := by simpa using h3
        simp only [List.map_cons, List.find?_cons, if_neg hc, h3b, ih]

/-- An update to a row other than `cid` is invisible to the `cid` fetch. -/
theorem getCollection_updateRow_ne (db : DB) (cid cid' : Nat) (f : CollectionRow → CollectionRow)
    (hf : ∀ c, (f c).id = c.id) (hne : cid' ≠ cid) :
    (db.updateRow cid' f).getCollection cid = db.getCollection cid := by
  simpa [DB.updateRow, DB.getCollection] using find?_update_ne db.collections cid cid' f hf hne

/-- The trace of the storage tail of `set_icon` only extends the events
already performed. -/
theorem icon_store_trace_extends (cid : Nat) (ext : String) (payload : List Nat)
    (env : Env) (db : DB) (preTrace : List Event) :
    ∃ t, (collection_icon_edit_store cid ext payload env db preTrace).trace
      = preTrace ++ t := by
  unfold collection_icon_edit_store
  cases hrp : read_from_payload payload 262144 "Icons must be smaller than 256KiB" with
  | error e => exact ⟨[], by simp [hrp]⟩
  | ok bytes =>
    cases hc : env.getColor bytes with
    | error e => exact ⟨[], by simp [hrp, hc]⟩
    | ok color =>
      cases hu : env.uploadOk ("data/" ++ toString cid ++ "/" ++ env.sha1hex bytes ++ "." ++ ext) with
      | false =>
        exact ⟨[Event.assetUpload ("data/" ++ toString cid ++ "/" ++ env.sha1hex bytes ++ "." ++ ext)],
          by simp [hrp, hc, hu]⟩
      | true =>
        exact ⟨[Event.assetUpload ("data/" ++ toString cid ++ "/" ++ env.sha1hex bytes ++ "." ++ ext),
          Event.clearCache cid, Event.commit], by simp [hrp, hc, hu]⟩

/-- Membership in an ON-CONFLICT-DO-NOTHING insertion. -/
theorem mem_insert_link (links : List (Nat × Nat)) (c p : Nat) (l : Nat × Nat) :
    l ∈ insert_link links c p ↔ l ∈ links ∨ l = (c, p) := by
  unfold insert_link
  by_cases h : (c, p) ∈ links
  · rw [if_pos h]
    constructor
    · exact fun hl => Or.inl hl
    · rintro (hl | rfl)
      · exact hl
      · exact h
  · rw [if_neg h]
    simp [List.mem_append]

/-- When a requested project id does not resolve, the membership loop fails
with a referenced-entity-missing error, whatever the link table looks like. -/
theorem edit_apply_projects_error (projects : List (String × Nat)) (cid : Nat)
    (ps : List String) (p : String) (hp : p ∈ ps)
    (hmiss : lookupProject projects p = none) :
    ∃ msg, ∀ links, edit_apply_projects projects cid ps links
      = .error (.invalidInput msg) := by
  induction ps with
  | nil => cases hp
  | cons q rest ih =>
    cases hq : lookupProject projects q with
    | none =>
      exact ⟨"The specified project " ++ q ++ " does not exist!",
        fun links => by simp [edit_apply_projects, hq]⟩
    | some pid =>
      rcases List.mem_cons.mp hp with h | h
      · subst h; rw [hq] at hmiss; cases hmiss
      · obtain ⟨msg, hmsg⟩ := ih h
        exact ⟨msg, fun links => by simp [edit_apply_projects, hq, hmsg]⟩

/-- When every requested project id resolves, the membership loop succeeds. -/
theorem edit_apply_projects_ok (projects : List (String × Nat)) (cid : Nat)
    (ps : List String) (hres : ∀ p ∈ ps, (lookupProject projects p).isSome) :
    ∀ links, ∃ links', edit_apply_projects projects cid ps links = .ok links' := by
  induction ps with
  | nil => exact fun links => ⟨links, rfl⟩
  | cons q rest ih =>
    intro links
    cases hq : lookupProject projects q with
    | none =>
      have := hres q (List.mem_cons_self q rest)
      rw [hq] at this; cases this
    | some pid =>
      obtain ⟨links', hl⟩ := ih (fun p hp => hres p (List.mem_cons_of_mem q hp))
        (insert_link links cid pid)
      exact ⟨links', by simp [edit_apply_projects, hq, hl]⟩

/-- The membership loop only adds links of the edited collection: the links
of every other collection are untouched. -/
theorem edit_apply_projects_filter (projects : List (String × Nat)) (cid : Nat)
    (ps : List String) :
    ∀ links links', edit_apply_projects projects cid ps links = .ok links' →
      links'.filter (fun l => !(l.1 == cid)) = links.filter (fun l => !(l.1 == cid)) := by
  induction ps with
  | nil =>
    intro links links' h
    simp only [edit_apply_projects] at h
    cases h; rfl
  | cons q rest ih =>
    intro links links' h
    simp only [edit_apply_projects] at h
    cases hq : lookupProject projects q with
    | none => rw [hq] at h; cases h
    | some pid =>
      rw [hq] at h
      have step := ih (insert_link links cid pid) links' h
      rw [step]
      unfold insert_link
      by_cases hc : (cid, pid) ∈ links
      · rw [if_pos hc]
      · rw [if_neg hc]
        simp [List.filter_append]

/-! ### Claim theorems -/

/-- An edit body changing only the title, as an anonymous caller might send. -/
def anonEditBody : EditCollection :=
  { title := some "anonymous edit", description := none, status := none, new_projects := none }

/-- C1: the claim says an operation whose scope check fails (here: an
anonymous caller attempting `edit`, a non-read operation) fails before any
repository read or write. The code instead swallows the failed scope check
with `.ok()`: on a publicly listed collection the anonymous edit reads the
collection row, mutates it and returns 204 No Content. -/
theorem c1_failed_scope_check_still_reads_and_writes :
    get_user_from_headers none [Scopes.collectionWrite] = .error .unauthenticated ∧
    (collection_edit none 1 anonEditBody sampleDB).result = .ok .noContent ∧
    Event.getRow 1 ∈ (collection_edit none 1 anonEditBody sampleDB).trace ∧
    ((collection_edit none 1 anonEditBody sampleDB).db.getCollection 1).map
      (fun c => c.title) = some "anonymous edit" := by
  decide

/-- C2 counterexample: on a collection that previously had an icon, with an
AssetStore whose delete fails, `set_icon` fails with a storage error — the
old-blob deletion failure aborts the whole operation — and the only
AssetStore call in the trace is that delete, performed before any upload or
database update, so not "after the new state is durable". -/
theorem c2_counterexample :
    (collection_icon_edit (some ownerCred) 1 "png" [0] envDeleteFail sampleDBIcon).result
      = .error .storage ∧
    (collection_icon_edit (some ownerCred) 1 "png" [0] envDeleteFail sampleDBIcon).trace
      = [Event.getRow 1, Event.assetDelete "data/1/old.png"] := by
  decide

/-- C2 amended: whenever `set_icon` runs on a collection that previously had
an icon (with a parseable icon path), the old blob is deleted from the
AssetStore before the payload is read, before any upload and before the
database update and commit; and a failure of that deletion makes the whole
operation fail with a storage error, leaving the database unchanged. -/
theorem c2_old_blob_deleted_first_and_failure_aborts
    (cred : Option AuthCred) (cid : Nat) (ext ct : String) (payload : List Nat)
    (env : Env) (db : DB) (item : CollectionRow) (p : String)
    (hct : get_image_content_type ext = some ct)
    (hget : db.getCollection cid = some item)
    (hauth : is_authorized_collection item
      ((get_user_from_headers cred [Scopes.collectionWrite]).toOption) = true)
    (hold : old_icon_path env.cdnUrl item.icon_url = some p) :
    (∃ t, (collection_icon_edit cred cid ext payload env db).trace
        = Event.getRow cid :: Event.assetDelete p :: t) ∧
    (env.deleteOk p = false →
      (collection_icon_edit cred cid ext payload env db).result = .error .storage ∧
      (collection_icon_edit cred cid ext payload env db).db = db) := by
  have hmain : collection_icon_edit cred cid ext payload env db
      = (if env.deleteOk p then
           collection_icon_edit_store item.id ext payload env db
             [Event.getRow cid, Event.assetDelete p]
         else ⟨.error .storage, db, [Event.getRow cid, Event.assetDelete p]⟩) := by
    unfold collection_icon_edit
    rw [hct]
    simp [hget, hauth, hold]
  cases hdel : env.deleteOk p with
  | true =>
    rw [hmain, hdel]
    obtain ⟨t, ht⟩ := icon_store_trace_extends item.id ext payload env db
      [Event.getRow cid, Event.assetDelete p]
    refine ⟨⟨t, by simpa using ht⟩, ?_⟩
    intro hcontra
    cases hcontra
  | false =>
    rw [hmain, hdel]
    exact ⟨⟨[], rfl⟩, fun _ => ⟨rfl, rfl⟩⟩

/-- C2 amended, instantiated: the concrete failing-delete run from the
counterexample discharges every hypothesis of the amended theorem. -/
theorem c2_old_blob_deleted_first_and_failure_aborts_witness :
    (∃ t, (collection_icon_edit (some ownerCred) 1 "png" [0] envDeleteFail sampleDBIcon).trace
        = Event.getRow 1 :: Event.assetDelete "data/1/old.png" :: t) ∧
    (envDeleteFail.deleteOk "data/1/old.png" = false →
      (collection_icon_edit (some ownerCred) 1 "png" [0] envDeleteFail sampleDBIcon).result
        = .error .storage ∧
      (collection_icon_edit (some ownerCred) 1 "png" [0] envDeleteFail sampleDBIcon).db
        = sampleDBIcon) :=
  c2_old_blob_deleted_first_and_failure_aborts (some ownerCred) 1 "png" "image/png" [0]
    envDeleteFail sampleDBIcon sampleRowIcon "data/1/old.png"
    (by decide) (by decide) (by decide) (by decide)

/-- Oversize `set_icon` runs: the request fails with the Validation error, no
upload happens, the database is unchanged, and the number of AssetStore
calls equals 1 when the collection previously had an icon (the early delete)
and 0 otherwise. -/
theorem icon_edit_oversize_aux
    (cred : Option AuthCred) (cid : Nat) (ext ct : String) (payload : List Nat)
    (env : Env) (db : DB) (item : CollectionRow)
    (hct : get_image_content_type ext = some ct)
    (hget : db.getCollection cid = some item)
    (hauth : is_authorized_collection item
      ((get_user_from_headers cred [Scopes.collectionWrite]).toOption) = true)
    (hdelok : ∀ p, old_icon_path env.cdnUrl item.icon_url = some p → env.deleteOk p = true)
    (hsize : payload.length > 262144) :
    (collection_icon_edit cred cid ext payload env db).result
      = .error (.validation "Icons must be smaller than 256KiB") ∧
    ((collection_icon_edit cred cid ext payload env db).trace.all
      (fun e => !e.isUpload)) = true ∧
    (collection_icon_edit cred cid ext payload env db).db = db ∧
    ((collection_icon_edit cred cid ext payload env db).trace.filter
        Event.isAssetCall).length
      = (match old_icon_path env.cdnUrl item.icon_url with
         | some _ => 1
         | none => 0) := by
  have hrp : read_from_payload payload 262144 "Icons must be smaller than 256KiB"
      = .error (.validation "Icons must be smaller than 256KiB") := by
    unfold read_from_payload
    rw [if_pos hsize]
  cases hold : old_icon_path env.cdnUrl item.icon_url with
  | some p =>
    have hdel := hdelok p hold
    have hmain : collection_icon_edit cred cid ext payload env db
        = collection_icon_edit_store item.id ext payload env db
            [Event.getRow cid, Event.assetDelete p] := by
      unfold collection_icon_edit
      rw [hct]
      simp [hget, hauth, hold, hdel]
    have hstore : collection_icon_edit_store item.id ext payload env db
        [Event.getRow cid, Event.assetDelete p]
        = ⟨.error (.validation "Icons must be smaller than 256KiB"), db,
           [Event.getRow cid, Event.assetDelete p]⟩ := by
      unfold collection_icon_edit_store
      rw [hrp]
    rw [hmain, hstore]
    exact ⟨rfl, by simp [Event.isUpload], rfl, by simp [Event.isAssetCall]⟩
  | none =>
    have hmain : collection_icon_edit cred cid ext payload env db
        = collection_icon_edit_store item.id ext payload env db [Event.getRow cid] := by
      unfold collection_icon_edit
      rw [hct]
      simp [hget, hauth, hold]
    have hstore : collection_icon_edit_store item.id ext payload env db [Event.getRow cid]
        = ⟨.error (.validation "Icons must be smaller than 256KiB"), db,
           [Event.getRow cid]⟩ := by
      unfold collection_icon_edit_store
      rw [hrp]
    rw [hmain, hstore]
    exact ⟨rfl, by simp [Event.isUpload], rfl, by simp [Event.isAssetCall]⟩

/-- C3 counterexample: an oversize (262145-byte) icon payload on a collection
that previously had an icon fails with the Validation error, yet the number
of AssetStore calls is not zero — the old-blob delete already ran before the
size check. -/
theorem c3_counterexample :
    (collection_icon_edit (some ownerCred) 1 "png" (List.replicate 262145 0)
        envAllOk sampleDBIcon).result
      = .error (.validation "Icons must be smaller than 256KiB") ∧
    ¬(((collection_icon_edit (some ownerCred) 1 "png" (List.replicate 262145 0)
        envAllOk sampleDBIcon).trace.filter Event.isAssetCall).length = 0) := by
  have hsize : (List.replicate 262145 (0 : Nat)).length > 262144 := by
    rw [List.length_replicate]
    decide
  have h := icon_edit_oversize_aux (some ownerCred) 1 "png" "image/png"
    (List.replicate 262145 0) envAllOk sampleDBIcon sampleRowIcon
    (by decide) (by decide) (by decide) (fun p _ => rfl) hsize
  have hold : old_icon_path envAllOk.cdnUrl sampleRowIcon.icon_url
      = some "data/1/old.png" := by decide
  refine ⟨h.1, ?_⟩
  have hc := h.2.2.2
  rw [hold] at hc
  intro h0
  rw [h0] at hc
  exact absurd hc (by decide)

/-- C3 amended: an oversize `set_icon` payload fails with `Validation` and
causes no AssetStore upload and no database change; however, when the
collection previously had an icon, one AssetStore delete call is performed
before the size check, so the operation does not perform zero AssetStore
calls in that case. -/
theorem c3_oversize_fails_validation_no_upload
    (cred : Option AuthCred) (cid : Nat) (ext ct : String) (payload : List Nat)
    (env : Env) (db : DB) (item : CollectionRow)
    (hct : get_image_content_type ext = some ct)
    (hget : db.getCollection cid = some item)
    (hauth : is_authorized_collection item
      ((get_user_from_headers cred [Scopes.collectionWrite]).toOption) = true)
    (hdelok : ∀ p, old_icon_path env.cdnUrl item.icon_url = some p → env.deleteOk p = true)
    (hsize : payload.length > 262144) :
    (collection_icon_edit cred cid ext payload env db).result
      = .error (.validation "Icons must be smaller than 256KiB") ∧
    ((collection_icon_edit cred cid ext payload env db).trace.all
      (fun e => !e.isUpload)) = true ∧
    (collection_icon_edit cred cid ext payload env db).db = db ∧
    ((collection_icon_edit cred cid ext payload env db).trace.filter
        Event.isAssetCall).length
      = (match old_icon_path env.cdnUrl item.icon_url with
         | some _ => 1
         | none => 0) :=
  icon_edit_oversize_aux cred cid ext ct payload env db item hct hget hauth hdelok hsize

/-- C3 amended, instantiated at the oversize payload on the icon-bearing
collection. -/
theorem c3_oversize_fails_validation_no_upload_witness :
    (collection_icon_edit (some ownerCred) 1 "png" (List.replicate 262145 0)
        envAllOk sampleDBIcon).result
      = .error (.validation "Icons must be smaller than 256KiB") ∧
    ((collection_icon_edit (some ownerCred) 1 "png" (List.replicate 262145 0)
        envAllOk sampleDBIcon).trace.all (fun e => !e.isUpload)) = true ∧
    (collection_icon_edit (some ownerCred) 1 "png" (List.replicate 262145 0)
        envAllOk sampleDBIcon).db = sampleDBIcon ∧
    ((collection_icon_edit (some ownerCred) 1 "png" (List.replicate 262145 0)
        envAllOk sampleDBIcon).trace.filter Event.isAssetCall).length
      = (match old_icon_path envAllOk.cdnUrl sampleRowIcon.icon_url with
         | some _ => 1
         | none => 0) :=
  c3_oversize_fails_validation_no_upload (some ownerCred) 1 "png" "image/png"
    (List.replicate 262145 0) envAllOk sampleDBIcon sampleRowIcon
    (by decide) (by decide) (by decide) (fun p _ => rfl)
    (by rw [List.length_replicate]; decide)

/-- The title/description transaction steps of `collection_edit` keep the row
present and preserve its status. -/
theorem edit_tx_facts (db : DB) (cid : Nat) (t? d? : Option String) (c : CollectionRow)
    (h : db.getCollection cid = some c) :
    ∃ c2, DB.getCollection
      (match d? with
       | some d => DB.updateRow
           (match t? with
            | some t => db.updateRow cid (fun r => { r with title := rust_trim t })
            | none => db) cid (fun r => { r with description := d })
       | none => (match t? with
           | some t => db.updateRow cid (fun r => { r with title := rust_trim t })
           | none => db)) cid = some c2 ∧ c2.status = c.status := by
  cases t? with
  | none =>
    cases d? with
    | none => exact ⟨c, h, rfl⟩
    | some d =>
      have hx := getCollection_updateRow db cid (fun r => { r with description := d }) (fun r => rfl)
      rw [h] at hx
      exact ⟨{ c with description := d }, by simpa using hx, rfl⟩
  | some t =>
    cases d? with
    | none =>
      have hx := getCollection_updateRow db cid (fun r => { r with title := rust_trim t }) (fun r => rfl)
      rw [h] at hx
      exact ⟨{ c with title := rust_trim t }, by simpa using hx, rfl⟩
    | some d =>
      have hx1 := getCollection_updateRow db cid (fun r => { r with title := rust_trim t }) (fun r => rfl)
      rw [h] at hx1
      have hx2 := getCollection_updateRow (db.updateRow cid (fun r => { r with title := rust_trim t }))
        cid (fun r => { r with description := d }) (fun r => rfl)
      rw [hx1] at hx2
      exact ⟨{ c with title := rust_trim t, description := d }, by simpa using hx2, rfl⟩

/-- An edit body requesting a retitle together with a status change to
Approved. -/
def statusEditBody : EditCollection :=
  { title := some "retitled!", description := none, status := some .approved,
    new_projects := none }

/-- C4 counterexample: an anonymous request (the swallowed scope check leaves
no authenticated user) on a publicly listed collection asks for a status
change to Approved. The actor is not a moderator and the current status
(`listed`) fails `is_approved`, so by the claim the edit must fail with a
permission error and apply nothing; instead the code silently skips the
status change, applies the title change and returns 204. -/
theorem c4_counterexample :
    (collection_edit none 1 statusEditBody sampleDB).result = .ok .noContent ∧
    ((collection_edit none 1 statusEditBody sampleDB).db.getCollection 1).map
      (fun c => c.status) = some CollectionStatus.listed ∧
    ((collection_edit none 1 statusEditBody sampleDB).db.getCollection 1).map
      (fun c => c.title) = some "retitled!" ∧
    sampleRow.status.is_approved = false := by
  decide

/-- C4 amended: when a status change is requested and an authenticated user
is present, the change is applied iff the user is a moderator or the current
status is approved and the requested status can be requested; otherwise the
whole edit fails with the permission error and the database is unchanged
(title/description updates in the same request are rolled back). When no
authenticated user is present (the scope-check failure was swallowed), the
status change is silently skipped while the rest of the edit is applied. -/
theorem c4_status_gate (cred : Option AuthCred) (cid : Nat) (body : EditCollection)
    (db : DB) (item : CollectionRow) (st : CollectionStatus)
    (hval : validate_edit body = true)
    (hget : db.getCollection cid = some item)
    (hauth : is_authorized_collection item
      ((get_user_from_headers cred [Scopes.collectionWrite]).toOption) = true)
    (hst : body.status = some st)
    (hnp : body.new_projects = none) :
    (∀ u, (get_user_from_headers cred [Scopes.collectionWrite]).toOption = some u →
      ((u.role_is_mod || (item.status.is_approved && st.can_be_requested)) = false →
        (collection_edit cred cid body db).result
          = .error (.customAuthentication "You don't have permission to set this status!") ∧
        (collection_edit cred cid body db).db = db) ∧
      ((u.role_is_mod || (item.status.is_approved && st.can_be_requested)) = true →
        (collection_edit cred cid body db).result = .ok .noContent ∧
        ((collection_edit cred cid body db).db.getCollection cid).map
          (fun c => c.status) = some st)) ∧
    ((get_user_from_headers cred [Scopes.collectionWrite]).toOption = none →
      (collection_edit cred cid body db).result = .ok .noContent ∧
      ((collection_edit cred cid body db).db.getCollection cid).map
        (fun c => c.status) = some item.status) := by
  have hid : item.id = cid := getCollection_id hget
  have hmaster : collection_edit cred cid body db
      = (match edit_step_status ((get_user_from_headers cred [Scopes.collectionWrite]).toOption)
            (some st) item.status cid
            (match body.description with
             | some d => DB.updateRow
                 (match body.title with
                  | some t => db.updateRow cid (fun r => { r with title := rust_trim t })
                  | none => db) cid (fun r => { r with description := d })
             | none => (match body.title with
                 | some t => db.updateRow cid (fun r => { r with title := rust_trim t })
                 | none => db)) with
         | .error e => Outcome.mk (.error e) db [Event.getRow cid]
         | .ok tx => Outcome.mk (.ok .noContent) tx
             [Event.getRow cid, Event.clearCache cid, Event.commit]) := by
    unfold collection_edit
    simp [hval, hget, hauth, hst, hnp, edit_step_projects, hid]
  obtain ⟨c2, hc2, hc2st⟩ := edit_tx_facts db cid body.title body.description item hget
  refine ⟨?_, ?_⟩
  · intro u hu
    refine ⟨?_, ?_⟩
    · intro hgate
      rw [hmaster, hu]
      simp [edit_step_status, hgate]
    · intro hgate
      rw [hmaster, hu]
      simp only [edit_step_status, hgate, Bool.not_true, Bool.false_eq_true, if_false]
      refine ⟨by trivial, ?_⟩
      have hup := getCollection_updateRow
        (match body.description with
         | some d => DB.updateRow
             (match body.title with
              | some t => db.updateRow cid (fun r => { r with title := rust_trim t })
              | none => db) cid (fun r => { r with description := d })
         | none => (match body.title with
             | some t => db.updateRow cid (fun r => { r with title := rust_trim t })
             | none => db)) cid (fun r => { r with status := st }) (fun r => rfl)
      rw [hup, hc2]
      rfl
  · intro hu
    rw [hmaster, hu]
    simp only [edit_step_status]
    refine ⟨by trivial, ?_⟩
    rw [hc2]
    simp [hc2st]

/-- C4 amended, instantiated: a non-moderator non-owner-relevant user asks to
move a listed collection to Approved. -/
theorem c4_status_gate_witness :
    (∀ u, (get_user_from_headers (some otherCred) [Scopes.collectionWrite]).toOption = some u →
      ((u.role_is_mod || (sampleRow.status.is_approved
          && CollectionStatus.approved.can_be_requested)) = false →
        (collection_edit (some otherCred) 1 statusEditBody sampleDB).result
          = .error (.customAuthentication "You don't have permission to set this status!") ∧
        (collection_edit (some otherCred) 1 statusEditBody sampleDB).db = sampleDB) ∧
      ((u.role_is_mod || (sampleRow.status.is_approved
          && CollectionStatus.approved.can_be_requested)) = true →
        (collection_edit (some otherCred) 1 statusEditBody sampleDB).result = .ok .noContent ∧
        ((collection_edit (some otherCred) 1 statusEditBody sampleDB).db.getCollection 1).map
          (fun c => c.status) = some CollectionStatus.approved)) ∧
    ((get_user_from_headers (some otherCred) [Scopes.collectionWrite]).toOption = none →
      (collection_edit (some otherCred) 1 statusEditBody sampleDB).result = .ok .noContent ∧
      ((collection_edit (some otherCred) 1 statusEditBody sampleDB).db.getCollection 1).map
        (fun c => c.status) = some sampleRow.status) :=
  c4_status_gate (some otherCred) 1 statusEditBody sampleDB sampleRow .approved
    (by decide) (by decide) (by decide) (by decide) (by decide)

/-- Filtering twice with the same predicate filters once. -/
theorem filter_idem {α : Type} (p : α → Bool) (l : List α) :
    (l.filter p).filter p = l.filter p := by
  induction l with
  | nil => rfl
  | cons a l ih =>
    by_cases h : p a
    · simp [List.filter_cons, h, ih]
    · simp [List.filter_cons, h, ih]

/-- C5: an edit carrying `new_project_ids` in which some id does not resolve
aborts with the referenced-entity-missing (`InvalidInput`) error, and the
transaction rollback leaves the database — in particular the membership set —
exactly as before the call. -/
theorem c5_unresolved_project_aborts_atomically
    (cred : Option AuthCred) (cid : Nat) (body : EditCollection) (db : DB)
    (item : CollectionRow) (ps : List String) (p : String)
    (hval : validate_edit body = true)
    (hget : db.getCollection cid = some item)
    (hauth : is_authorized_collection item
      ((get_user_from_headers cred [Scopes.collectionWrite]).toOption) = true)
    (hst : body.status = none)
    (hps : body.new_projects = some ps)
    (hp : p ∈ ps)
    (hmiss : lookupProject db.projects p = none) :
    (∃ msg, (collection_edit cred cid body db).result = .error (.invalidInput msg)) ∧
    (collection_edit cred cid body db).db = db ∧
    (collection_edit cred cid body db).db.memberSet cid = db.memberSet cid := by
  have hid : item.id = cid := getCollection_id hget
  obtain ⟨msg, hmsg⟩ := edit_apply_projects_error db.projects cid ps p hp hmiss
  have hmaster : collection_edit cred cid body db
      = ⟨.error (.invalidInput msg), db, [Event.getRow cid]⟩ := by
    unfold collection_edit
    simp [hval, hget, hauth, hst, hps, hid, edit_step_status, edit_step_projects, hmsg]
  exact ⟨⟨msg, by rw [hmaster]⟩, by rw [hmaster], by rw [hmaster]⟩

/-- An edit body whose membership list contains an id that does not resolve. -/
def badProjectsBody : EditCollection :=
  { title := none, description := none, status := none,
    new_projects := some ["alpha", "missing"] }

/-- C5, instantiated: editing with `["alpha", "missing"]` where only `alpha`
resolves fails and leaves the database unchanged. -/
theorem c5_unresolved_project_aborts_atomically_witness :
    (∃ msg, (collection_edit (some ownerCred) 1 badProjectsBody sampleDB).result
      = .error (.invalidInput msg)) ∧
    (collection_edit (some ownerCred) 1 badProjectsBody sampleDB).db = sampleDB ∧
    (collection_edit (some ownerCred) 1 badProjectsBody sampleDB).db.memberSet 1
      = sampleDB.memberSet 1 :=
  c5_unresolved_project_aborts_atomically (some ownerCred) 1 badProjectsBody sampleDB
    sampleRow ["alpha", "missing"] "missing"
    (by decide) (by decide) (by decide) (by decide) (by decide) (by decide) (by decide)

/-- An edit body that only replaces the membership list. -/
def replaceBody (X : List String) : EditCollection :=
  { title := none, description := none, status := none, new_projects := some X }

/-- C7: replace-all membership editing is idempotent — run twice with the
same list, both calls succeed and the second run leaves the database (hence
the membership set) exactly as after the first; and inserting an
already-present (collection, project) pair is a no-op, not an error. -/
theorem c7_replace_all_idempotent
    (cred : Option AuthCred) (cid : Nat) (db : DB) (item : CollectionRow) (X : List String)
    (hget : db.getCollection cid = some item)
    (hauth : is_authorized_collection item
      ((get_user_from_headers cred [Scopes.collectionWrite]).toOption) = true)
    (hlen : X.length ≤ 64)
    (hres : ∀ p ∈ X, (lookupProject db.projects p).isSome) :
    (collection_edit cred cid (replaceBody X) db).result = .ok .noContent ∧
    (collection_edit cred cid (replaceBody X)
        (collection_edit cred cid (replaceBody X) db).db).result = .ok .noContent ∧
    (collection_edit cred cid (replaceBody X)
        (collection_edit cred cid (replaceBody X) db).db).db
      = (collection_edit cred cid (replaceBody X) db).db ∧
    (collection_edit cred cid (replaceBody X)
        (collection_edit cred cid (replaceBody X) db).db).db.memberSet cid
      = (collection_edit cred cid (replaceBody X) db).db.memberSet cid ∧
    (∀ links c p, (c, p) ∈ links → insert_link links c p = links) := by
  have hid : item.id = cid := getCollection_id hget
  have hval : validate_edit
      { title := none, description := none, status := none, new_projects := some X }
      = true := by
    simp [validate_edit, hlen]
  obtain ⟨L1, hL1⟩ := edit_apply_projects_ok db.projects cid X hres
    (db.links.filter (fun l => !(l.1 == cid)))
  have hmaster1 : collection_edit cred cid (replaceBody X) db
      = ⟨.ok .noContent, { db with links := L1 },
         [Event.getRow cid, Event.clearCache cid, Event.commit]⟩ := by
    unfold collection_edit
    simp [hval, hget, hauth, hid, replaceBody, edit_step_status, edit_step_projects, hL1]
  have hget1 : DB.getCollection { db with links := L1 } cid = some item := hget
  have hfil := edit_apply_projects_filter db.projects cid X
    (db.links.filter (fun l => !(l.1 == cid))) L1 hL1
  have hL1' : edit_apply_projects db.projects cid X
      (L1.filter (fun l => !(l.1 == cid))) = .ok L1 := by
    rw [hfil, filter_idem]
    exact hL1
  have hmaster2 : collection_edit cred cid (replaceBody X) { db with links := L1 }
      = ⟨.ok .noContent, { db with links := L1 },
         [Event.getRow cid, Event.clearCache cid, Event.commit]⟩ := by
    unfold collection_edit
    simp [hval, hget1, hauth, hid, replaceBody, edit_step_status, edit_step_projects, hL1']
  refine ⟨by rw [hmaster1], ?_, ?_, ?_, ?_⟩
  · rw [hmaster1]
    rw [hmaster2]
  · rw [hmaster1]
    rw [hmaster2]
  · rw [hmaster1]
    rw [hmaster2]
  · intro links c p h
    simp [insert_link, h]

/-- C7, instantiated: replacing the membership of the sample collection with
`["alpha", "beta"]` twice. -/
theorem c7_replace_all_idempotent_witness :
    (collection_edit (some ownerCred) 1 (replaceBody ["alpha", "beta"]) sampleDB).result
      = .ok .noContent ∧
    (collection_edit (some ownerCred) 1 (replaceBody ["alpha", "beta"])
        (collection_edit (some ownerCred) 1 (replaceBody ["alpha", "beta"]) sampleDB).db).result
      = .ok .noContent ∧
    (collection_edit (some ownerCred) 1 (replaceBody ["alpha", "beta"])
        (collection_edit (some ownerCred) 1 (replaceBody ["alpha", "beta"]) sampleDB).db).db
      = (collection_edit (some ownerCred) 1 (replaceBody ["alpha", "beta"]) sampleDB).db ∧
    (collection_edit (some ownerCred) 1 (replaceBody ["alpha", "beta"])
        (collection_edit (some ownerCred) 1 (replaceBody ["alpha", "beta"]) sampleDB).db).db.memberSet 1
      = (collection_edit (some ownerCred) 1 (replaceBody ["alpha", "beta"]) sampleDB).db.memberSet 1 ∧
    (∀ links c p, (c, p) ∈ links → insert_link links c p = links) :=
  c7_replace_all_idempotent (some ownerCred) 1 sampleDB sampleRow ["alpha", "beta"]
    (by decide) (by decide) (by decide) (by decide)

/-- C6 counterexample: an authenticated, non-owner, non-moderator user with
full write scope edits a private collection. The claim says the write must
return "forbidden" (HTTP 403); the code returns `HttpResponse::Unauthorized`,
HTTP 401. -/
theorem c6_counterexample :
    (collection_edit (some otherCred) 1 anonEditBody sampleDBPrivate).result
      = .ok .unauthorized ∧
    Response.unauthorized.statusCode = 401 ∧
    ¬(Response.unauthorized.statusCode = 403) := by
  decide

/-- C6 amended: when the visibility/ownership check fails, a `get` returns
NotFound (indistinguishable from an unknown id, which also yields NotFound),
while the write operations (edit, set icon, clear icon, delete) return the
401 Unauthorized response — not a 403 Forbidden — and leave the database
unchanged. -/
theorem c6_visibility_failure_responses
    (cred : Option AuthCred) (cid : Nat) (db : DB) (body : EditCollection)
    (ext : String) (payload : List Nat) (env : Env) :
    ((∀ item, db.getCollection cid = some item →
        is_authorized_collection item
          ((get_user_from_headers cred [Scopes.collectionRead]).toOption) = false) →
      (collection_get cred cid db).result = .ok .notFound) ∧
    (∀ item, db.getCollection cid = some item →
      is_authorized_collection item
        ((get_user_from_headers cred [Scopes.collectionWrite]).toOption) = false →
      (validate_edit body = true →
        (collection_edit cred cid body db).result = .ok .unauthorized ∧
        (collection_edit cred cid body db).db = db) ∧
      ((∃ ct, get_image_content_type ext = some ct) →
        (collection_icon_edit cred cid ext payload env db).result = .ok .unauthorized ∧
        (collection_icon_edit cred cid ext payload env db).db = db) ∧
      ((delete_collection_icon cred cid env db).result = .ok .unauthorized ∧
       (delete_collection_icon cred cid env db).db = db)) ∧
    (∀ item, db.getCollection cid = some item →
      is_authorized_collection item
        ((get_user_from_headers cred [Scopes.collectionDelete]).toOption) = false →
      (collection_delete cred cid db).result = .ok .unauthorized ∧
      (collection_delete cred cid db).db = db) ∧
    Response.unauthorized.statusCode = 401 := by
  refine ⟨?_, ?_, ?_, rfl⟩
  · intro hAuthF
    unfold collection_get
    cases hg : db.getCollection cid with
    | none => simp [hg]
    | some data => simp [hg, hAuthF data hg]
  · intro item hget hauthf
    refine ⟨?_, ?_, ?_⟩
    · intro hv
      constructor
      · unfold collection_edit
        simp [hv, hget, hauthf]
      · unfold collection_edit
        simp [hv, hget, hauthf]
    · rintro ⟨ct, hct⟩
      constructor
      · unfold collection_icon_edit
        rw [hct]
        simp [hget, hauthf]
      · unfold collection_icon_edit
        rw [hct]
        simp [hget, hauthf]
    · constructor
      · unfold delete_collection_icon
        simp [hget, hauthf]
      · unfold delete_collection_icon
        simp [hget, hauthf]
  · intro item hget hauthf
    constructor
    · unfold collection_delete
      simp [hget, hauthf]
    · unfold collection_delete
      simp [hget, hauthf]

/-- C6 amended, instantiated: the authenticated unrelated user against the
private sample collection, for all five operations. -/
theorem c6_visibility_failure_responses_witness :
    (collection_get (some otherCred) 1 sampleDBPrivate).result = .ok .notFound ∧
    (collection_edit (some otherCred) 1 anonEditBody sampleDBPrivate).result
      = .ok .unauthorized ∧
    (collection_icon_edit (some otherCred) 1 "png" [0] envAllOk sampleDBPrivate).result
      = .ok .unauthorized ∧
    (delete_collection_icon (some otherCred) 1 envAllOk sampleDBPrivate).result
      = .ok .unauthorized ∧
    (collection_delete (some otherCred) 1 sampleDBPrivate).result = .ok .unauthorized := by
  have H := c6_visibility_failure_responses (some otherCred) 1 sampleDBPrivate
    anonEditBody "png" [0] envAllOk
  have hrow : sampleDBPrivate.getCollection 1 = some sampleRowPrivate := by decide
  have hitem : ∀ item, sampleDBPrivate.getCollection 1 = some item → item = sampleRowPrivate := by
    intro item h
    rw [hrow] at h
    cases h
    rfl
  refine ⟨?_, ?_, ?_, ?_, ?_⟩
  · exact H.1 (fun item h => by rw [hitem item h]; decide)
  · exact ((H.2.1 sampleRowPrivate hrow (by decide)).1 (by decide)).1
  · exact ((H.2.1 sampleRowPrivate hrow (by decide)).2.1 ⟨"image/png", by decide⟩).1
  · exact ((H.2.1 sampleRowPrivate hrow (by decide)).2.2).1
  · exact (H.2.2.1 sampleRowPrivate hrow (by decide)).1

/-- A successful icon-store tail ends with the cache invalidation directly
followed by the commit. -/
theorem icon_store_success_trace (cid : Nat) (ext : String) (payload : List Nat)
    (env : Env) (db : DB) (preTrace : List Event) :
    (collection_icon_edit_store cid ext payload env db preTrace).result = .ok .noContent →
    ∃ t, (collection_icon_edit_store cid ext payload env db preTrace).trace
      = t ++ [Event.clearCache cid, Event.commit] := by
  unfold collection_icon_edit_store
  cases hrp : read_from_payload payload 262144 "Icons must be smaller than 256KiB" with
  | error e => intro h; simp [hrp] at h
  | ok bytes =>
    cases hc : env.getColor bytes with
    | error e => intro h; simp [hrp, hc] at h
    | ok color =>
      cases hu : env.uploadOk ("data/" ++ toString cid ++ "/" ++ env.sha1hex bytes ++ "." ++ ext) with
      | false => intro h; simp [hrp, hc, hu] at h
      | true =>
        intro _
        refine ⟨preTrace ++ [Event.assetUpload
          ("data/" ++ toString cid ++ "/" ++ env.sha1hex bytes ++ "." ++ ext)], ?_⟩
        simp [hrp, hc, hu]

/-- C8: for each mutating operation, a successful run's trace ends with the
cache invalidation for the collection id immediately followed by the
transaction commit — the invalidation happens, and it happens before the
commit. -/
theorem c8_cache_invalidated_before_commit
    (cred : Option AuthCred) (cid : Nat) (body : EditCollection) (ext : String)
    (payload : List Nat) (env : Env) (db : DB) :
    ((collection_edit cred cid body db).result = .ok .noContent →
      ∃ t, (collection_edit cred cid body db).trace
        = t ++ [Event.clearCache cid, Event.commit]) ∧
    ((collection_icon_edit cred cid ext payload env db).result = .ok .noContent →
      ∃ t, (collection_icon_edit cred cid ext payload env db).trace
        = t ++ [Event.clearCache cid, Event.commit]) ∧
    ((delete_collection_icon cred cid env db).result = .ok .noContent →
      ∃ t, (delete_collection_icon cred cid env db).trace
        = t ++ [Event.clearCache cid, Event.commit]) ∧
    ((collection_delete cred cid db).result = .ok .noContent →
      ∃ t, (collection_delete cred cid db).trace
        = t ++ [Event.clearCache cid, Event.commit]) := by
  refine ⟨?_, ?_, ?_, ?_⟩
  · unfold collection_edit
    cases hvb : validate_edit body with
    | false => intro h; simp [hvb] at h
    | true =>
      cases hg : db.getCollection cid with
      | none => intro h; simp [hvb, hg] at h
      | some item =>
        have hid : item.id = cid := getCollection_id hg
        subst hid
        cases hab : is_authorized_collection item
            ((get_user_from_headers cred [Scopes.collectionWrite]).toOption) with
        | false => intro h; simp [hvb, hg, hab] at h
        | true =>
          simp only [hvb, hg, hab, Bool.not_true, Bool.false_eq_true, if_false]
          split
          · intro h; simp at h
          · split
            · intro h; simp at h
            · intro _
              exact ⟨[Event.getRow item.id], by simp⟩
  · cases hct : get_image_content_type ext with
    | none => intro h; unfold collection_icon_edit at h; rw [hct] at h; simp at h
    | some ct =>
      cases hg : db.getCollection cid with
      | none => intro h; unfold collection_icon_edit at h; rw [hct] at h; simp [hg] at h
      | some item =>
        have hid : item.id = cid := getCollection_id hg
        subst hid
        cases hab : is_authorized_collection item
            ((get_user_from_headers cred [Scopes.collectionWrite]).toOption) with
        | false =>
          intro h; unfold collection_icon_edit at h; rw [hct] at h; simp [hg, hab] at h
        | true =>
          cases ho : old_icon_path env.cdnUrl item.icon_url with
          | some p =>
            have hmaster : collection_icon_edit cred item.id ext payload env db
                = (if env.deleteOk p then
                     collection_icon_edit_store item.id ext payload env db
                       [Event.getRow item.id, Event.assetDelete p]
                   else ⟨.error .storage, db,
                     [Event.getRow item.id, Event.assetDelete p]⟩) := by
              unfold collection_icon_edit
              rw [hct]
              simp [hg, hab, ho]
            rw [hmaster]
            cases hdel : env.deleteOk p with
            | false => intro h; simp at h
            | true =>
              intro h
              exact icon_store_success_trace item.id ext payload env db
                [Event.getRow item.id, Event.assetDelete p] h
          | none =>
            have hmaster : collection_icon_edit cred item.id ext payload env db
                = collection_icon_edit_store item.id ext payload env db
                    [Event.getRow item.id] := by
              unfold collection_icon_edit
              rw [hct]
              simp [hg, hab, ho]
            rw [hmaster]
            intro h
            exact icon_store_success_trace item.id ext payload env db
              [Event.getRow item.id] h
  · cases hg : db.getCollection cid with
    | none => intro h; unfold delete_collection_icon at h; simp [hg] at h
    | some item =>
      have hid : item.id = cid := getCollection_id hg
      subst hid
      cases hab : is_authorized_collection item
          ((get_user_from_headers cred [Scopes.collectionWrite]).toOption) with
      | false => intro h; unfold delete_collection_icon at h; simp [hg, hab] at h
      | true =>
        cases ho : old_icon_path env.cdnUrl item.icon_url with
        | some p =>
          have hmaster : delete_collection_icon cred item.id env db
              = (if env.deleteOk p then
                   delete_collection_icon_store item.id db
                     [Event.getRow item.id, Event.assetDelete p]
                 else ⟨.error .storage, db,
                   [Event.getRow item.id, Event.assetDelete p]⟩) := by
            unfold delete_collection_icon
            simp [hg, hab, ho]
          rw [hmaster]
          cases hdel : env.deleteOk p with
          | false => intro h; simp at h
          | true =>
            intro _
            exact ⟨[Event.getRow item.id, Event.assetDelete p],
              by simp [delete_collection_icon_store]⟩
        | none =>
          have hmaster : delete_collection_icon cred item.id env db
              = delete_collection_icon_store item.id db [Event.getRow item.id] := by
            unfold delete_collection_icon
            simp [hg, hab, ho]
          rw [hmaster]
          intro _
          exact ⟨[Event.getRow item.id], by simp [delete_collection_icon_store]⟩
  · cases hg : db.getCollection cid with
    | none => intro h; unfold collection_delete at h; simp [hg] at h
    | some collection =>
      have hid : collection.id = cid := getCollection_id hg
      subst hid
      cases hab : is_authorized_collection collection
          ((get_user_from_headers cred [Scopes.collectionDelete]).toOption) with
      | false => intro h; unfold collection_delete at h; simp [hg, hab] at h
      | true =>
        unfold collection_delete
        simp only [hg, hab, Bool.not_true, Bool.false_eq_true, if_false]
        split
        · intro _
          exact ⟨[Event.getRow collection.id] ++ (Collection_remove db collection.id).2.2,
            by simp⟩
        · intro h; simp at h

/-- C8, instantiated: the owner performs each mutating operation on the
sample collection; each succeeds and each trace ends with the cache
invalidation followed by the commit. -/
theorem c8_cache_invalidated_before_commit_witness :
    (∃ t, (collection_edit (some ownerCred) 1 anonEditBody sampleDB).trace
      = t ++ [Event.clearCache 1, Event.commit]) ∧
    (∃ t, (collection_icon_edit (some ownerCred) 1 "png" [0] envAllOk sampleDB).trace
      = t ++ [Event.clearCache 1, Event.commit]) ∧
    (∃ t, (delete_collection_icon (some ownerCred) 1 envAllOk sampleDBIcon).trace
      = t ++ [Event.clearCache 1, Event.commit]) ∧
    (∃ t, (collection_delete (some ownerCred) 1 sampleDB).trace
      = t ++ [Event.clearCache 1, Event.commit]) := by
  have H1 := c8_cache_invalidated_before_commit (some ownerCred) 1 anonEditBody
    "png" [0] envAllOk sampleDB
  have H2 := c8_cache_invalidated_before_commit (some ownerCred) 1 anonEditBody
    "png" [0] envAllOk sampleDBIcon
  exact ⟨H1.1 (by decide), H1.2.1 (by decide), H2.2.2.1 (by decide), H1.2.2.2 (by decide)⟩

/-- Membership after folding idempotent link insertions over a list of
project ids. -/
theorem mem_foldl_insert_link (cid : Nat) (pids : List Nat) :
    ∀ (init : List (Nat × Nat)) (l : Nat × Nat),
      l ∈ pids.foldl (fun ls pid => insert_link ls cid pid) init ↔
        l ∈ init ∨ ∃ pid ∈ pids, l = (cid, pid) := by
  induction pids with
  | nil => intro init l; simp
  | cons q rest ih =>
    intro init l
    simp only [List.foldl_cons]
    rw [ih (insert_link init cid q) l, mem_insert_link]
    constructor
    · rintro ((hl | rfl) | ⟨pid, hpid, rfl⟩)
      · exact Or.inl hl
      · exact Or.inr ⟨q, List.mem_cons_self q rest, rfl⟩
      · exact Or.inr ⟨pid, List.mem_cons_of_mem q hpid, rfl⟩
    · rintro (hl | ⟨pid, hpid, rfl⟩)
      · exact Or.inl (Or.inl hl)
      · rcases List.mem_cons.mp hpid with h | h
        · rw [h]; exact Or.inl (Or.inr rfl)
        · exact Or.inr ⟨pid, h, rfl⟩

/-- The observable membership set is exactly the join table restricted to the
collection. -/
theorem mem_memberSet (db : DB) (cid pid : Nat) :
    pid ∈ db.memberSet cid ↔ (cid, pid) ∈ db.links := by
  unfold DB.memberSet
  constructor
  · intro h
    obtain ⟨l, hl, hpl⟩ := List.mem_map.mp h
    obtain ⟨hmem, hfst⟩ := List.mem_filter.mp hl
    have h1 : l.1 = cid := by simpa using hfst
    have h2 : l = (cid, pid) := by
      cases l
      simp_all
    rwa [h2] at hmem
  · intro h
    exact List.mem_map.mpr ⟨(cid, pid), List.mem_filter.mpr ⟨h, by simp⟩, rfl⟩

/-- C9: `create` silently drops initial project ids that do not resolve: it
succeeds (never a referenced-entity-missing error), the returned entity's
projects are exactly the resolved ids, and the stored membership set of the
new collection contains exactly the resolved ids. -/
theorem c9_create_drops_unresolved
    (cred : Option AuthCred) (body : CollectionCreateData) (env : Env) (db : DB) (u : User)
    (huser : get_user_from_headers cred [Scopes.collectionCreate] = .ok u)
    (hval : validate_create body = true)
    (hfresh : ∀ l ∈ db.links, l.1 ≠ generate_collection_id db) :
    ∃ c : CollectionModel,
      (collection_create cred body env db).result = .ok (.okCollection c) ∧
      c.projects = project_get_many db.projects body.projects ∧
      (∀ pid, pid ∈ (collection_create cred body env db).db.memberSet
          (generate_collection_id db)
        ↔ pid ∈ project_get_many db.projects body.projects) := by
  have hmaster : collection_create cred body env db
      = ⟨.ok (.okCollection
          { id := generate_collection_id db, user := u.id, title := body.title,
            description := body.description, created := env.now, updated := env.now,
            icon_url := none, color := none, status := .listed,
            projects := project_get_many db.projects body.projects }),
         { db with
           collections := db.collections ++
             [{ id := generate_collection_id db, user_id := u.id, title := body.title,
                description := body.description, status := .listed, icon_url := none,
                color := none, created := env.now, updated := env.now }],
           links := (project_get_many db.projects body.projects).foldl
             (fun ls pid => insert_link ls (generate_collection_id db) pid) db.links },
         [Event.commit]⟩ := by
    unfold collection_create
    rw [huser]
    simp [hval]
  refine ⟨_, by rw [hmaster], rfl, ?_⟩
  intro pid
  rw [hmaster]
  rw [mem_memberSet]
  rw [mem_foldl_insert_link]
  constructor
  · rintro (hl | ⟨q, hq, heq⟩)
    · exact absurd rfl (hfresh _ hl)
    · cases heq
      exact hq
  · intro h
    exact Or.inr ⟨pid, h, rfl⟩

/-- A create request whose initial projects contain one id that resolves and
one that does not. -/
def mixedCreateBody : CollectionCreateData :=
  { title := "my collection", description := "some things", projects := ["alpha", "missing"] }

/-- C9, instantiated: creating with `["alpha", "missing"]` succeeds, and both
the response and the stored membership contain exactly project 10
(`alpha`) — the unresolved id is silently dropped. -/
theorem c9_create_drops_unresolved_witness :
    ∃ c : CollectionModel,
      (collection_create (some ownerCred) mixedCreateBody envAllOk sampleDB).result
        = .ok (.okCollection c) ∧
      c.projects = project_get_many sampleDB.projects mixedCreateBody.projects ∧
      (∀ pid, pid ∈ (collection_create (some ownerCred) mixedCreateBody envAllOk
          sampleDB).db.memberSet (generate_collection_id sampleDB)
        ↔ pid ∈ project_get_many sampleDB.projects mixedCreateBody.projects) :=
  c9_create_drops_unresolved (some ownerCred) mixedCreateBody envAllOk sampleDB
    ownerCred.user (by decide) (by decide) (by decide)

/-- An edit body whose title is a one-letter name padded with whitespace to
the minimum validated length. -/
def trimEditBody : EditCollection :=
  { title := some " a ", description := none, status := none, new_projects := none }

/-- C10: the stored title of an edit is the whitespace-trimmed input while
the 3-to-64-character length validation is applied to the untrimmed input;
in particular the input `" a "` passes validation yet its persisted form
`"a"` is shorter than the 3-character minimum. -/
theorem c10_title_trimmed_validation_untrimmed
    (cred : Option AuthCred) (cid : Nat) (body : EditCollection) (db : DB)
    (item : CollectionRow) (t : String)
    (hval : validate_edit body = true)
    (hget : db.getCollection cid = some item)
    (hauth : is_authorized_collection item
      ((get_user_from_headers cred [Scopes.collectionWrite]).toOption) = true)
    (ht : body.title = some t)
    (hd : body.description = none)
    (hs : body.status = none)
    (hn : body.new_projects = none) :
    (collection_edit cred cid body db).result = .ok .noContent ∧
    ((collection_edit cred cid body db).db.getCollection cid).map (fun c => c.title)
      = some (rust_trim t) ∧
    validate_edit trimEditBody = true ∧
    rust_trim " a " = "a" ∧
    "a".length < 3 := by
  have hid : item.id = cid := getCollection_id hget
  have hmaster : collection_edit cred cid body db
      = ⟨.ok .noContent, db.updateRow cid (fun r => { r with title := rust_trim t }),
         [Event.getRow cid, Event.clearCache cid, Event.commit]⟩ := by
    unfold collection_edit
    simp [hval, hget, hauth, ht, hd, hs, hn, hid, edit_step_status, edit_step_projects]
  refine ⟨by rw [hmaster], ?_, by decide, by decide, by decide⟩
  rw [hmaster]
  have hup := getCollection_updateRow db cid (fun r => { r with title := rust_trim t })
    (fun r => rfl)
  rw [hup, hget]
  rfl

/-- C10, instantiated: editing the sample collection with title `" a "`. -/
theorem c10_title_trimmed_validation_untrimmed_witness :
    (collection_edit (some ownerCred) 1 trimEditBody sampleDB).result = .ok .noContent ∧
    ((collection_edit (some ownerCred) 1 trimEditBody sampleDB).db.getCollection 1).map
      (fun c => c.title) = some (rust_trim " a ") ∧
    validate_edit trimEditBody = true ∧
    rust_trim " a " = "a" ∧
    "a".length < 3 :=
  c10_title_trimmed_validation_untrimmed (some ownerCred) 1 trimEditBody sampleDB
    sampleRow " a " (by decide) (by decide) (by decide) (by decide) (by decide)
    (by decide) (by decide)

end Collections
